import Mathlib

/-!
Shallow embedding of the ShreeAdvaya admin backend (serverless request
handlers persisting JSON collections as commits to a Git hosting provider).

Embedded source files:
  * `src/api/data.js` — batch multi-file commit handler (`handleBatch`),
    single-file content handler (`handleContent`), provider read helper
    (`getFileFromGitHub`).
  * `src/api/auth/users.js` — credential vault (`encryptPassword`,
    `decryptPassword`), account store (`loadUsers`, `findUser`,
    `authenticateUser`).
  * `src/api/auth/users-management.js` — account management handler
    (list / update / delete with the default-admin protections).

JavaScript plain objects with string-valued fields are modelled as
association lists `Obj`; object spread `{...a, ...b}` keeps every key of
`b` and the keys of `a` not shadowed by `b`.  Provider I/O, `Date.now()`,
`Math.random()` and the Node `crypto` module are external collaborators:
their results enter the definitions as explicit parameters, and the
handlers return outcome records listing exactly the provider writes they
would perform.
-/

/-- A JavaScript object with string-valued fields, as an association list
(keys assumed unique, as in a JS object literal). -/
abbrev Obj := List (String × String)

/-- Field access `o.k` : the value of key `k`, `none` when absent
(JS `undefined`). -/
def Obj.get (o : Obj) (k : String) : Option String :=
  o.lookup k

/-- JS object spread `{...a, ...b}` : every key of `b`, plus the keys of
`a` that `b` does not shadow. -/
def spread (a b : Obj) : Obj :=
  a.filter (fun p => (b.lookup p.1).isNone) ++ b

/-! ## `src/api/data.js` — the batch multi-file commit handler -/

/-- One collection's submitted change-set: the optional `create` / `update` /
`delete` arrays of the batch payload (`body.products` etc.). -/
structure ChangeSet where
  create : Option (List Obj) := none
  update : Option (List Obj) := none
  del : Option (List String) := none
deriving Repr, DecidableEq

/-- The `content` member of the batch payload; `update` is the whole new
document (`body.content.update`). -/
structure ContentChange where
  update : Option Obj := none
deriving Repr, DecidableEq

/-- The parsed batch request body.  The admin client
(`src/assets/js/admin.js`, `saveAllChanges`) also sends a `users`
change-set, so it is part of the payload shape. -/
structure BatchBody where
  products : Option ChangeSet := none
  gallery : Option ChangeSet := none
  hero : Option ChangeSet := none
  content : Option ContentChange := none
  users : Option ChangeSet := none
deriving Repr, DecidableEq

/-- Contents written to one repository file: the three collection files hold
JSON arrays, `data/content.json` holds a JSON object. -/
inductive FileData where
  | arr (items : List Obj)
  | obj (doc : Obj)
deriving Repr, DecidableEq

/-- Result of `verifyToken` (`src/api/auth/jwt.js`): `{valid:true, user}` or
`{valid:false, error}`. -/
inductive VerifyResult where
  | valid (username role : String)
  | invalid (error : String)
deriving Repr, DecidableEq

/-- What a batch invocation returns and which provider writes it performs.
`filesToUpdate` is the write set of the single commit; `commitPerformed`
records whether the blob/tree/commit/ref-update sequence ran at all. -/
structure BatchOutcome where
  status : Nat
  message : Option String := none
  error : Option String := none
  filesToUpdate : List (String × FileData) := []
  results : List (String × Option Nat) := []
  commitPerformed : Bool := false
deriving Repr, DecidableEq

/-- Drop `pat` from the front of `s` when it is a prefix. -/
def dropPrefixL : List Char → List Char → Option (List Char)
  | s, [] => some s
  | [], _ :: _ => none
  | c :: s, p :: ps => if c = p then dropPrefixL s ps else none

/-- JS `String.prototype.replace(pat, '')` with a string pattern: remove
the FIRST occurrence of `pat`, if any. -/
def removeFirstL : List Char → List Char → List Char
  | [], _ => []
  | c :: rest, pat =>
    match dropPrefixL (c :: rest) pat with
    | some tail => tail
    | none => c :: removeFirstL rest pat

/-- JS `s.replace(pat, '')` on strings. -/
def jsRemoveFirst (s pat : String) : String :=
  String.mk (removeFirstL s.toList pat.toList)

/-- JS `String.prototype.includes`. -/
def jsIncludesL : List Char → List Char → Bool
  | [], sub => (dropPrefixL [] sub).isSome
  | c :: rest, sub => (dropPrefixL (c :: rest) sub).isSome || jsIncludesL rest sub

/-- Token extraction at the top of `handleBatch`:
`authHeader?.replace('Bearer ', '')`, then `if (!token)` rejects the
missing header and the empty string. -/
def bearerToken (authHeader : Option String) : Option String :=
  match authHeader with
  | none => none
  | some h =>
    let t := jsRemoveFirst h "Bearer "
    if t = "" then none else some t

/-- A freshly created item:
`{ id: <generated>, ...item, createdAt: <now> }` — note the generated id is
spread FIRST, so an `id` field on the submitted item overrides it. -/
def mkCreated (gid : String) (item : Obj) (now : String) : Obj :=
  spread (spread [("id", gid)] item) [("createdAt", now)]

/-- The loop `create.forEach(item => ...push(newItem))`: each entry gets the id
produced by its index's call to the id generator. -/
def createWithIds (genId : Nat → String) (now : String) : Nat → List Obj → List Obj
  | _, [] => []
  | i, item :: rest => mkCreated (genId i) item now :: createWithIds genId now (i + 1) rest

/-- One `update.forEach` step: `findIndex(p => p.id === update.id)`, and on
a hit `products[index] = { ...products[index], ...update, updatedAt: now }`;
a miss leaves the snapshot unchanged. -/
def applyUpdate1 (now : String) (snap : List Obj) (u : Obj) : List Obj :=
  match snap.findIdx? (fun p => p.get "id" == u.get "id") with
  | some i => snap.set i (spread (spread ((snap.get? i).getD []) u) [("updatedAt", now)])
  | none => snap

/-- The whole `update.forEach` loop. -/
def applyUpdates (snap : List Obj) (us : List Obj) (now : String) : List Obj :=
  us.foldl (applyUpdate1 now) snap

/-- The `hasChanges` flag of each collection block: any of the three arrays
is present and non-empty. -/
def hasChanges (cs : ChangeSet) : Bool :=
  (match cs.create with | some l => decide (l.length > 0) | none => false) ||
  (match cs.update with | some l => decide (l.length > 0) | none => false) ||
  (match cs.del with | some l => decide (l.length > 0) | none => false)

/-- One collection block of `handleBatch` (products / gallery / hero):
the update loop followed by the create loop.  A present non-empty
`delete` array then reaches `products = products.filter(...)` — but
`products` was declared with `const`, so the assignment throws a
TypeError that the handler's catch block turns into a 500; this split
mirrors that the mutated snapshot only survives when no delete array is
submitted. -/
def applyUpdatesThenCreates (snap : List Obj) (cs : ChangeSet)
    (genId : Nat → String) (now : String) : List Obj :=
  let s1 := match cs.update with
    | some us => applyUpdates snap us now
    | none => snap
  match cs.create with
  | some items => s1 ++ createWithIds genId now 0 items
  | none => s1

/-- The delete step and the `hasChanges` decision that follow the update
and create loops of a collection block. -/
def processArrayCollection (snap : List Obj) (cs : ChangeSet)
    (genId : Nat → String) (now : String) : Except String (List Obj × Bool) :=
  match cs.del with
  | some ds =>
    if ds.length > 0 then
      let _deleteIds := ds.filter (fun i => !(i.startsWith "temp_"))
      Except.error "Assignment to constant variable"
    else Except.ok (applyUpdatesThenCreates snap cs genId now, hasChanges cs)
  | none => Except.ok (applyUpdatesThenCreates snap cs genId now, hasChanges cs)

/-- A processed collection's contribution to `filesToUpdate` and `results`:
the file (and a `{success, count}` result) exactly when `hasChanges`. -/
def collEntry (path name : String) (snapRes : Except String (List Obj × Bool)) :
    Except String (List (String × FileData) × List (String × Option Nat)) :=
  match snapRes with
  | Except.error e => Except.error e
  | Except.ok (s, hc) =>
    if hc then Except.ok ([(path, FileData.arr s)], [(name, some s.length)])
    else Except.ok ([], [])

/-- The guard `if (body.products) { ... }`: an absent collection contributes nothing
(and its snapshot is not even loaded). -/
def optColl (ocs : Option ChangeSet) (snap : List Obj) (genId : Nat → String)
    (now : String) (path name : String) :
    Except String (List (String × FileData) × List (String × Option Nat)) :=
  match ocs with
  | none => Except.ok ([], [])
  | some cs => collEntry path name (processArrayCollection snap cs genId now)

/-- The content block of `handleBatch`:
`if (body.content && body.content.update)` adds `data/content.json` with
the submitted document as the whole new file. -/
def contentFiles : Option ContentChange → List (String × FileData)
  | some c =>
    match c.update with
    | some doc => [("data/content.json", FileData.obj doc)]
    | none => []
  | none => []

/-- The `results.content = { success: true }` entry, recorded exactly when
the content file is added. -/
def contentResults : Option ContentChange → List (String × Option Nat)
  | some c =>
    match c.update with
    | some _ => [("content", none)]
    | none => []
  | none => []

/-- The sequential processing of the four collection blocks of
`handleBatch`.  Products and gallery generate ids by
`Date.now().toString() + Math.random().toString(36).substr(2, 9)`
(abstracted as the per-call generators `genIdP`, `genIdG`); hero generates
`(Date.now() + counter++).toString()` (clock reading `heroMs i` plus the
counter, no random suffix).  A throw in an earlier block skips all later
blocks.  The `users` member of the body is never read. -/
def processAll (body : BatchBody) (productsSnap gallerySnap heroSnap : List Obj)
    (genIdP genIdG : Nat → String) (heroMs : Nat → Nat) (now : String) :
    Except String (List (String × FileData) × List (String × Option Nat)) :=
  match optColl body.products productsSnap genIdP now "data/products.json" "products" with
  | Except.error e => Except.error e
  | Except.ok (f1, r1) =>
    match optColl body.gallery gallerySnap genIdG now "data/gallery.json" "gallery" with
    | Except.error e => Except.error e
    | Except.ok (f2, r2) =>
      match optColl body.hero heroSnap (fun i => toString (heroMs i + i)) now
          "data/hero.json" "hero" with
      | Except.error e => Except.error e
      | Except.ok (f3, r3) =>
        Except.ok (f1 ++ f2 ++ f3 ++ contentFiles body.content,
          r1 ++ r2 ++ r3 ++ contentResults body.content)

/-- Function `handleBatch` (`src/api/data.js:95-306`): bearer-token check
(`401` on missing/invalid — the token's role is never inspected), GitHub
token configuration check, per-collection processing, then either the
`No changes to save` early return (no provider write) or the single
commit over `filesToUpdate`.  A thrown processing error is caught and
returned as a 500 with no write. -/
def handleBatch (authHeader : Option String) (verify : String → VerifyResult)
    (githubToken : Option String) (body : BatchBody)
    (productsSnap gallerySnap heroSnap : List Obj)
    (genIdP genIdG : Nat → String) (heroMs : Nat → Nat) (now : String) : BatchOutcome :=
  match bearerToken authHeader with
  | none => { status := 401, error := some "Unauthorized. Please login." }
  | some token =>
    match verify token with
    | VerifyResult.invalid _ =>
      { status := 401, error := some "Unauthorized. Invalid or expired token." }
    | VerifyResult.valid _ _ =>
      match githubToken with
      | none => { status := 500, error := some "GitHub token not configured" }
      | some _ =>
        match processAll body productsSnap gallerySnap heroSnap genIdP genIdG heroMs now with
        | Except.error e => { status := 500, error := some e }
        | Except.ok (filesToUpdate, results) =>
          if filesToUpdate.length = 0 then
            { status := 200, message := some "No changes to save", results := results }
          else
            { status := 200,
              message := some "All changes saved successfully in a single commit",
              filesToUpdate := filesToUpdate, results := results,
              commitPerformed := true }

/-- Outcome of the content handler: response status plus the single-file
provider write it performs, if any. -/
structure ContentOutcome where
  status : Nat
  error : Option String := none
  savedFile : Option (String × Obj) := none
  responseBody : Option Obj := none
deriving Repr, DecidableEq

/-- Function `handleContent` (`src/api/data.js:50-92`): GET returns the document;
PUT overlays the body onto the loaded document, stamps `updatedAt` and
writes `data/content.json`.  The request's authorization header is never
consulted anywhere in this handler. -/
def handleContent (method : String) (_authHeader : Option String) (body : Obj)
    (githubToken : Option String) (snapshot : Obj) (now : String) : ContentOutcome :=
  match githubToken with
  | none => { status := 500, error := some "GitHub token not configured" }
  | some _ =>
    if method = "GET" then
      { status := 200, responseBody := some snapshot }
    else if method = "PUT" then
      let updatedContent := spread (spread snapshot body) [("updatedAt", now)]
      { status := 200, savedFile := some ("data/content.json", updatedContent),
        responseBody := some updatedContent }
    else
      { status := 405, error := some "Method not allowed" }

/-! ## `getFileFromGitHub` (`src/api/data.js:309-337`) -/

/-- What the provider read produced: the fetch promise rejected, or an HTTP
response arrived with a status and (when its body decodes and parses) a
parsed JSON value. -/
inductive FetchOutcome where
  | networkError
  | httpResponse (status : Nat) (parsed : Option FileData)
deriving Repr, DecidableEq

/-- JS `String.prototype.includes` on strings. -/
def jsIncludes (s sub : String) : Bool :=
  jsIncludesL s.toList sub.toList

/-- The fallback value: `path.includes('content.json') ? {} : []`. -/
def emptyFor (path : String) : FileData :=
  if jsIncludes path "content.json" then FileData.obj [] else FileData.arr []

/-- The check `response.ok`: status in the 2xx range. -/
def responseOk (status : Nat) : Bool :=
  decide (200 ≤ status) && decide (status ≤ 299)

/-- Function `getFileFromGitHub`: 404 returns the empty collection; a non-OK status
throws and the catch returns the empty collection; a network error or an
unparseable body likewise lands in the catch; only a 2xx response with a
parseable body returns real content. -/
def getFileFromGitHub (path : String) (outcome : FetchOutcome) : FileData :=
  match outcome with
  | FetchOutcome.networkError => emptyFor path
  | FetchOutcome.httpResponse status parsed =>
    if status = 404 then emptyFor path
    else if !(responseOk status) then emptyFor path
    else
      match parsed with
      | some d => d
      | none => emptyFor path

/-! ## `src/api/auth/users.js` — the account store -/

/-- JS truthiness of a possibly-absent string field (`undefined` and `""`
are falsy). -/
def jsTruthy : Option String → Bool
  | some s => s ≠ ""
  | none => false

/-- JS truthiness of a possibly-absent boolean field. -/
def jsTruthyB : Option Bool → Bool
  | some b => b
  | none => false

/-- JS `a || d` for a possibly-absent string `a`. -/
def jsOr (a : Option String) (d : String) : String :=
  match a with
  | some s => if s = "" then d else s
  | none => d

/-- JS `String.prototype.toLowerCase()` for the ASCII usernames this code
compares (per-character lowering). -/
def jsToLower (s : String) : String :=
  String.mk (s.toList.map Char.toLower)

/-- A record of `data/users.json`.  Fields other than `username` may be
absent in the persisted file, hence `Option`; `username` must be a string
for the handlers to run at all (they call `.toLowerCase()` on it). -/
structure User where
  username : String
  encryptedPassword : Option String := none
  role : Option String := none
  email : Option String := none
  createdAt : Option String := none
  isPlainText : Option Bool := none
  isDefault : Option Bool := none
deriving Repr, DecidableEq

/-- Function `getDefaultAdminUser`: with `ADMIN_PASSWORD` set, the default admin
with the encrypted master password; without it, the legacy plain-text
record (flagged `isPlainText`). -/
def getDefaultAdminUser (adminPassword : Option String) (encrypt : String → String)
    (now : String) : User :=
  match adminPassword with
  | none =>
    { username := "Admin", encryptedPassword := some "admin", role := some "admin",
      email := some "admin@shreeadvaya.com", createdAt := some now,
      isPlainText := some true, isDefault := some true }
  | some pw =>
    { username := "Admin", encryptedPassword := some (encrypt pw), role := some "admin",
      email := some "admin@shreeadvaya.com", createdAt := some now,
      isPlainText := none, isDefault := some true }

/-- The drift-repair merge of `loadUsers`:
`{ ...existing, ...defaultAdmin, encryptedPassword: existing || default,
isDefault: true }` — every field present on `defaultAdmin` overrides the
persisted one (in particular `username`, `role`, `email`, `createdAt`),
the stored credential survives when non-empty, and `isPlainText` is kept
when `defaultAdmin` lacks it. -/
def mergedAdmin (existing defaultAdmin : User) : User :=
  { username := defaultAdmin.username,
    encryptedPassword :=
      if jsTruthy existing.encryptedPassword then existing.encryptedPassword
      else defaultAdmin.encryptedPassword,
    role := defaultAdmin.role.orElse (fun _ => existing.role),
    email := defaultAdmin.email.orElse (fun _ => existing.email),
    createdAt := defaultAdmin.createdAt.orElse (fun _ => existing.createdAt),
    isPlainText := defaultAdmin.isPlainText.orElse (fun _ => existing.isPlainText),
    isDefault := some true }

/-- The reconciliation at the end of `loadUsers`: unshift the default
admin when no record's lowercased username is `admin`, else repair the
first such record in place. -/
def ensureDefaultAdmin (defaultAdmin : User) (users : List User) : List User :=
  if users.any (fun u => (jsToLower u.username) == "admin") then
    match users.findIdx? (fun u => (jsToLower u.username) == "admin") with
    | some i => users.set i (mergedAdmin ((users.get? i).getD defaultAdmin) defaultAdmin)
    | none => users
  else
    defaultAdmin :: users

/-- Function `loadUsers` (`src/api/auth/users.js:103-165`): the GitHub read (when it
succeeds with an array) supplies the list, the parsed `ADMIN_USERS`
environment list is the fallback when that list is empty, and the default
admin reconciliation runs on every load. -/
def loadUsers (fetched : Option (List User)) (envUsers : Option (List User))
    (defaultAdmin : User) : List User :=
  let users : List User := match fetched with | some l => l | none => []
  let users := if users.length = 0 then
      (match envUsers with | some l => l | none => users)
    else users
  ensureDefaultAdmin defaultAdmin users

/-- Function `findUser`: `users.find(u => u.username === username)` — an exact,
case-sensitive match. -/
def findUser (users : List User) (username : String) : Option User :=
  users.find? (fun u => u.username == username)

/-- Function `authenticateUser` (`src/api/auth/users.js:179-206`) over an
already-loaded list, with the credential decryption passed in as `dec`:
lookup via `findUser`; the legacy `isPlainText` branch compares directly;
otherwise decrypt and compare; every failure path returns `none`. -/
def authenticateUser (dec : String → Option String) (users : List User)
    (username password : String) : Option (String × String) :=
  match findUser users username with
  | none => none
  | some user =>
    if jsTruthyB user.isPlainText then
      if user.encryptedPassword == some password then
        some (user.username, jsOr user.role "admin")
      else none
    else
      match user.encryptedPassword with
      | none => none
      | some e =>
        match dec e with
        | none => none
        | some d =>
          if password = d then some (user.username, jsOr user.role "admin")
          else none

/-! ## `src/api/auth/users-management.js` — account management handler -/

/-- Parsed body of a users-management request (`{username, password, role,
email}`; `DELETE` uses only `username`). -/
structure UMBody where
  username : Option String := none
  password : Option String := none
  role : Option String := none
  email : Option String := none
deriving Repr, DecidableEq

/-- Outcome of a users-management request: response status and the
`data/users.json` write, if one is performed. -/
structure UMOutcome where
  status : Nat
  error : Option String := none
  savedUsers : Option (List User) := none
deriving Repr, DecidableEq

/-- The list `const validRoles = ['admin', 'editor', 'viewer']`. -/
def validRoles : List String := ["admin", "editor", "viewer"]

/-- The in-place field updates of the `PUT` branch: password re-encrypted
when truthy, role set when truthy and the target is not the default
account, email set (with the `username@shreeadvaya.com` fallback) when the
field is present, and `isDefault` re-asserted when the target's lowercased
username is `admin`.  The target's `username` field is never assigned. -/
def applyUserPatch (body : UMBody) (username : String) (encrypt : String → String)
    (target : User) : User :=
  let u1 := if jsTruthy body.password then
      { target with encryptedPassword := some (encrypt (body.password.getD "")) }
    else target
  let u2 := if jsTruthy body.role && !(jsTruthyB target.isDefault) then
      { u1 with role := body.role }
    else u1
  let u3 := match body.email with
    | some e =>
      { u2 with email := some (if e = "" then username ++ "@shreeadvaya.com" else e) }
    | none => u2
  if jsToLower u3.username = "admin" then { u3 with isDefault := some true } else u3

/-- The `Ensure Admin user is always included before saving` block shared
by the PUT and DELETE branches (and the register handler): when
`ADMIN_PASSWORD` is set and no record's lowercased username is `admin`,
unshift a fresh default admin. -/
def ensureAdminInList (adminPassword : Option String) (encrypt : String → String)
    (now : String) (users2 : List User) : List User :=
  match adminPassword with
  | some pw =>
    if users2.any (fun u => (jsToLower u.username) == "admin") then users2
    else getDefaultAdminUser (some pw) encrypt now :: users2
  | none => users2

/-- Continuation of `umPut` after the password validation: locate the target (lowercased
username match), enforce the default-admin protections, mutate, ensure the
admin record exists, save. -/
def umPutFound (body : UMBody) (users : List User) (username : String)
    (adminPassword : Option String) (encrypt : String → String) (now : String)
    (githubConfigured : Bool) : UMOutcome :=
  match users.findIdx? (fun u => (jsToLower u.username) == jsToLower username) with
  | none => { status := 404, error := some "User not found" }
  | some i =>
    let target := (users.get? i).getD (getDefaultAdminUser adminPassword encrypt now)
    if jsTruthyB target.isDefault && jsTruthy body.role && !(body.role == some "admin") then
      { status := 400, error := some "Cannot change default admin user role" }
    else if jsTruthyB target.isDefault && !((jsToLower username) == "admin") then
      { status := 400, error := some "Cannot change default admin username" }
    else
      let users3 := ensureAdminInList adminPassword encrypt now
        (users.set i (applyUserPatch body username encrypt target))
      if !githubConfigured then
        { status := 500, error := some "GitHub configuration missing" }
      else
        { status := 200, savedUsers := some users3 }

/-- Continuation of `umPut` after the role validation. -/
def umPutChecked (body : UMBody) (users : List User) (username : String)
    (adminPassword : Option String) (encrypt : String → String) (now : String)
    (githubConfigured : Bool) : UMOutcome :=
  match body.password with
  | some p =>
    if p.length < 6 then
      { status := 400, error := some "Password must be at least 6 characters" }
    else umPutFound body users username adminPassword encrypt now githubConfigured
  | none => umPutFound body users username adminPassword encrypt now githubConfigured

/-- The `PUT` branch of the users-management handler, after the admin
guard: validation, the default-admin protections, the in-place field
updates, the ensure-admin pass, then the provider write. -/
def umPut (body : UMBody) (users : List User) (adminPassword : Option String)
    (encrypt : String → String) (now : String) (githubConfigured : Bool) : UMOutcome :=
  if !(jsTruthy body.username) then
    { status := 400, error := some "Username is required" }
  else
    let username := body.username.getD ""
    match body.role with
    | some r =>
      if !(validRoles.contains r) then
        { status := 400, error := some "Role must be one of: admin, editor, viewer" }
      else umPutChecked body users username adminPassword encrypt now githubConfigured
    | none => umPutChecked body users username adminPassword encrypt now githubConfigured

/-- The `DELETE` branch of the users-management handler, after the admin
guard (`actingUsername` is the verified token's username). -/
def umDelete (body : UMBody) (users : List User) (actingUsername : String)
    (adminPassword : Option String) (encrypt : String → String) (now : String)
    (githubConfigured : Bool) : UMOutcome :=
  if !(jsTruthy body.username) then
    { status := 400, error := some "Username is required" }
  else
    let username := body.username.getD ""
    match users.findIdx? (fun u => (jsToLower u.username) == jsToLower username) with
    | none => { status := 404, error := some "User not found" }
    | some i =>
      let target := (users.get? i).getD (getDefaultAdminUser adminPassword encrypt now)
      if jsTruthyB target.isDefault then
        { status := 400, error := some "Cannot delete default admin user" }
      else if jsToLower target.username == jsToLower actingUsername then
        { status := 400, error := some "Cannot delete your own account" }
      else
        let users3 := ensureAdminInList adminPassword encrypt now (users.eraseIdx i)
        if !githubConfigured then
          { status := 500, error := some "GitHub configuration missing" }
        else
          { status := 200, savedUsers := some users3 }

/-- The users-management handler (`src/api/auth/users-management.js:63-336`
and the identical `handleUsers` of the consolidated auth route): bearer
token required, token must verify, role must be `admin` — all before any
provider I/O — then dispatch on the method (GET is read-only). -/
def usersManagement (authHeader : Option String) (verify : String → VerifyResult)
    (method : String) (body : UMBody) (loadedUsers : List User)
    (adminPassword : Option String) (encrypt : String → String) (now : String)
    (githubConfigured : Bool) : UMOutcome :=
  match bearerToken authHeader with
  | none => { status := 401, error := some "Authentication required" }
  | some token =>
    match verify token with
    | VerifyResult.invalid _ => { status := 401, error := some "Invalid or expired token" }
    | VerifyResult.valid actingUsername actingRole =>
      if actingRole ≠ "admin" then
        { status := 403, error := some "Admin access required" }
      else if method = "GET" then
        { status := 200 }
      else if method = "PUT" then
        umPut body loadedUsers adminPassword encrypt now githubConfigured
      else if method = "DELETE" then
        umDelete body loadedUsers actingUsername adminPassword encrypt now githubConfigured
      else
        { status := 405, error := some "Method not allowed" }

/-! ## Credential vault (`src/api/auth/users.js:24-66`)

`encryptPassword` / `decryptPassword` wrap Node's `aes-256-gcm` cipher.
The cipher itself is an external collaborator, modelled as an abstract
authenticated cipher (keystream `enc`/`dec` over byte lists with
`dec ∘ enc = id`, and an authentication tag `mac` over the ciphertext that
`decipher.final()` checks); the record format `iv:authTag:ciphertext` in
lowercase hex, the three-part split, and the fail-closed `try/catch` are
embedded concretely. -/

/-- The lowercase hex digit of a nibble, as produced by Node's
`Buffer.toString('hex')` (core's `Nat.digitChar` emits `0-9a-f` below
16). -/
def hexDigit (n : Nat) : Char :=
  Nat.digitChar n

/-- The numeric value of a hex digit (`Buffer.from(·, 'hex')`
direction). -/
def hexVal (c : Char) : Option Nat :=
  if 48 ≤ c.toNat ∧ c.toNat ≤ 57 then some (c.toNat - 48)
  else if 97 ≤ c.toNat ∧ c.toNat ≤ 102 then some (c.toNat - 87)
  else none

/-- One byte as two hex digits. -/
def hexByte (b : Nat) : List Char :=
  [hexDigit (b / 16), hexDigit (b % 16)]

/-- A byte list as a lowercase hex string (`buf.toString('hex')`). -/
def hexEncodeL (bs : List Nat) : List Char :=
  (bs.map hexByte).flatten

/-- Hex decoding (`Buffer.from(s, 'hex')`), failing on odd length or a
non-hex character. -/
def hexDecodeL : List Char → Option (List Nat)
  | [] => some []
  | c1 :: c2 :: rest =>
    match hexVal c1, hexVal c2, hexDecodeL rest with
    | some h, some l, some bs => some ((16 * h + l) :: bs)
    | _, _, _ => none
  | [_] => none

/-- JS `String.prototype.split(':')` at the character-list level. -/
def splitOnColon : List Char → List (List Char)
  | [] => [[]]
  | c :: rest =>
    if c = ':' then [] :: splitOnColon rest
    else
      match splitOnColon rest with
      | h :: t => (c :: h) :: t
      | [] => [[c]]

/-- The `aes-256-gcm` cipher of the Node `crypto` module, abstracted:
`enc`/`dec` map plaintext to ciphertext bytes and back under a key and an
initialization vector, and `mac` is the authentication tag computed over
the ciphertext that `decipher.final()` verifies.  The three properties are
the cipher contract the source relies on. -/
structure AES256GCM where
  enc : Nat → List Nat → String → List Nat
  dec : Nat → List Nat → List Nat → String
  mac : Nat → List Nat → List Nat → List Nat
  dec_enc : ∀ k iv p, dec k iv (enc k iv p) = p
  enc_bytes : ∀ k iv p, ∀ b ∈ enc k iv p, b < 256
  mac_bytes : ∀ k iv c, ∀ b ∈ mac k iv c, b < 256

/-- The stored record `iv:authTag:encrypted`, each part in hex. -/
def mkRecord (iv authTag encrypted : List Nat) : String :=
  String.mk (hexEncodeL iv) ++ ":" ++ String.mk (hexEncodeL authTag) ++ ":"
    ++ String.mk (hexEncodeL encrypted)

/-- Function `encryptPassword` (`src/api/auth/users.js:24-36`): encrypt under the
derived key with a fresh `iv`, take the auth tag, and produce
`iv:authTag:encrypted`. -/
def encryptPassword (A : AES256GCM) (key : Nat) (iv : List Nat) (password : String) : String :=
  let encrypted := A.enc key iv password
  let authTag := A.mac key iv encrypted
  mkRecord iv authTag encrypted

/-- Function `decryptPassword` (`src/api/auth/users.js:42-66`): split on `:`;
anything but exactly three parts throws (caught, `null`); decode the hex
parts (failures land in the same catch); `decipher.final()` throws on an
auth-tag mismatch (caught, `null`); otherwise the decrypted plaintext. -/
def decryptPassword (A : AES256GCM) (key : Nat) (encryptedPassword : String) : Option String :=
  match splitOnColon encryptedPassword.toList with
  | [ivHex, authTagHex, encryptedHex] =>
    match hexDecodeL ivHex, hexDecodeL authTagHex, hexDecodeL encryptedHex with
    | some iv, some authTag, some encrypted =>
      if A.mac key iv encrypted = authTag then some (A.dec key iv encrypted)
      else none
    | _, _, _ => none
  | _ => none

/-- A concrete instance of the abstract cipher, for evaluating the vault on
inputs: each character becomes four base-256 digits, and the tag is a
key-dependent checksum byte. -/
def charToBytes (c : Char) : List Nat :=
  [c.toNat / 16777216, c.toNat / 65536 % 256, c.toNat / 256 % 256, c.toNat % 256]

/-- Inverse direction of `charToBytes`, in groups of four bytes. -/
def bytesToChars : List Nat → List Char
  | b1 :: b2 :: b3 :: b4 :: rest =>
    Char.ofNat (b1 * 16777216 + b2 * 65536 + b3 * 256 + b4) :: bytesToChars rest
  | _ => []

/-- The toy cipher: it satisfies exactly the contract the vault relies on. -/
def charCodec : AES256GCM where
  enc := fun _ _ p => (p.toList.map charToBytes).flatten
  dec := fun _ _ bs => String.mk (bytesToChars bs)
  mac := fun k _ c => [(k + c.length) % 256]
  dec_enc := by
    intro k iv p
    have hinv : ∀ cs : List Char, bytesToChars ((cs.map charToBytes).flatten) = cs := by
      intro cs
      induction cs with
      | nil => rfl
      | cons c t ih =>
        simp only [List.map_cons, List.flatten_cons, charToBytes, List.cons_append,
          List.nil_append]
        rw [bytesToChars]
        have hn : c.toNat / 16777216 * 16777216 + c.toNat / 65536 % 256 * 65536 +
            c.toNat / 256 % 256 * 256 + c.toNat % 256 = c.toNat := by omega
        rw [hn, Char.ofNat_toNat, ih]
    simp only [hinv]
    cases p
    rfl
  enc_bytes := by
    intro k iv p b hb
    simp only [List.mem_flatten, List.mem_map] at hb
    obtain ⟨l, ⟨c, _, hcl⟩, hbl⟩ := hb
    subst hcl
    have hc : c.toNat < 4294967296 := c.val.toNat_lt
    simp only [charToBytes, List.mem_cons, List.not_mem_nil, or_false] at hbl
    rcases hbl with h | h | h | h <;> omega
  mac_bytes := by
    intro k iv c b hb
    simp only [List.mem_cons, List.not_mem_nil, or_false] at hb
    subst hb
    exact Nat.mod_lt _ (by omega)

/-- The default admin produced with a concrete master password, identity
encryption and a fixed clock, for concrete evaluation. -/
def c4DefaultAdmin : User :=
  getDefaultAdminUser (some "master") id "2024-01-01T00:00:00.000Z"

/-- A persisted record under a different username carrying
`isDefault: true`. -/
def c4Bob : User :=
  { username := "Bob", isDefault := some true }

/-- A stored account under the exact username `Admin`, with a legacy
plain-text credential, for concrete evaluation. -/
def c6User : User :=
  { username := "Admin", encryptedPassword := some "pw", role := some "admin",
    isPlainText := some true }

/-- Whether a submitted (possibly absent) change-set sets the `hasChanges`
flag of its block. -/
def collHasChanges : Option ChangeSet → Bool
  | some cs => hasChanges cs
  | none => false

/-- The snapshot a block would write for a (possibly absent) change-set. -/
def optSnap (ocs : Option ChangeSet) (snap : List Obj) (genId : Nat → String)
    (now : String) : List Obj :=
  match ocs with
  | some cs => applyUpdatesThenCreates snap cs genId now
  | none => snap

/-- No delete array was submitted for this collection (absent or empty) —
the only case in which its block runs to completion. -/
def noDel : Option ChangeSet → Prop
  | some cs => cs.del = none ∨ cs.del = some []
  | none => True

/-- A products snapshot holding one item, for concrete evaluation. -/
def c1Snap : List Obj := [[("id", "p1"), ("name", "x")]]

/-- A batch whose only entry is an update to an id that matches nothing. -/
def c1Body : BatchBody := { products := some { update := some [[("id", "nope")]] } }

/-- The spec's two-collection scenario: a products update plus a gallery
delete, submitted in one batch. -/
def c3Body : BatchBody :=
  { products := some { update := some [[("id", "p1"), ("name", "new")]] },
    gallery := some { del := some ["g1"] } }

/-- Loaded products snapshot for the scenario. -/
def c3PSnap : List Obj := [[("id", "p1"), ("name", "old")]]

/-- Loaded gallery snapshot for the scenario. -/
def c3GSnap : List Obj := [[("id", "g1")]]

/-- A batch carrying one products create, for concrete evaluation. -/
def c2Body : BatchBody := { products := some { create := some [[("name", "x")]] } }

/-- The array contents a collection block works on after a provider read
(`getFileFromGitHub` returns a parsed JSON value; the collection blocks
treat it as an array). -/
def fileItems : FileData → List Obj
  | FileData.arr l => l
  | FileData.obj _ => []

/-! ## Theorems -/

theorem lookup_append (a b : Obj) (k : String) :
    (a ++ b).lookup k = ((a.lookup k).orElse (fun _ => b.lookup k)) := by
  induction a with
  | nil => rfl
  | cons p t ih =>
    by_cases h : k = p.1
    · simp [List.lookup, h, Option.orElse]
    · have hbe : (k == p.1) = false := by simp [h]
      simp [List.lookup, hbe, ih]

theorem lookup_filter_key (a : Obj) (f : String → Bool) (k : String) :
    (a.filter (fun p => f p.1)).lookup k = if f k then a.lookup k else none := by
  induction a with
  | nil => simp
  | cons p t ih =>
    by_cases hf : f p.1
    · by_cases h : k = p.1
      · subst h; simp [List.filter, hf, List.lookup, ih]
      · have hbe : (k == p.1) = false := by simp [h]
        simp [List.filter, hf, List.lookup, hbe, ih]
    · by_cases h : k = p.1
      · subst h; simp [List.filter, hf, List.lookup, ih]
      · have hbe : (k == p.1) = false := by simp [h]
        simp [List.filter, hf, List.lookup, hbe, ih]

/-- Spread semantics at the level of field lookup: `b` wins on the keys it
has, `a` supplies the rest. -/
theorem spread_get (a b : Obj) (k : String) :
    (spread a b).get k = ((b.get k).orElse (fun _ => a.get k)) := by
  unfold spread Obj.get
  rw [lookup_append]
  rw [lookup_filter_key a (fun x => (b.lookup x).isNone) k]
  cases hb : b.lookup k with
  | none =>
    simp only [hb, Option.isNone_none, if_true, Option.orElse]
    cases a.lookup k <;> rfl
  | some v =>
    simp only [hb, Option.isNone_some, if_false, List.lookup_nil, Option.orElse]
    cases a.lookup k <;> rfl

theorem hexDigit_ne_colon (n : Nat) (h : n < 16) : hexDigit n ≠ ':' := by
  unfold hexDigit
  interval_cases n <;> decide

theorem colon_not_mem_hexEncodeL (bs : List Nat) (hbs : ∀ b ∈ bs, b < 256) :
    ':' ∉ hexEncodeL bs := by
  induction bs with
  | nil => simp [hexEncodeL]
  | cons b t ih =>
    have hb : b < 256 := hbs b (List.mem_cons_self b t)
    intro hmem
    simp only [hexEncodeL, List.map_cons, List.flatten_cons, List.mem_append] at hmem
    rcases hmem with hmem | hmem
    · simp only [hexByte, List.mem_cons, List.not_mem_nil, or_false] at hmem
      rcases hmem with h | h
      · exact hexDigit_ne_colon _ (by omega) h.symm
      · exact hexDigit_ne_colon _ (Nat.mod_lt _ (by omega)) h.symm
    · exact ih (fun x hx => hbs x (List.mem_cons_of_mem _ hx)) hmem

theorem hexVal_hexDigit (n : Nat) (h : n < 16) : hexVal (hexDigit n) = some n := by
  interval_cases n <;> decide

theorem hexDecodeL_hexEncodeL (bs : List Nat) (h : ∀ b ∈ bs, b < 256) :
    hexDecodeL (hexEncodeL bs) = some bs := by
  induction bs with
  | nil => simp [hexEncodeL, hexDecodeL]
  | cons b t ih =>
    have hb : b < 256 := h b (List.mem_cons_self b t)
    have hdiv : b / 16 < 16 := by omega
    have hmod : b % 16 < 16 := Nat.mod_lt _ (by omega)
    have ht : ∀ x ∈ t, x < 256 := fun x hx => h x (List.mem_cons_of_mem _ hx)
    simp only [hexEncodeL, List.map_cons, List.flatten_cons, hexByte, List.cons_append,
      List.nil_append]
    show hexDecodeL (hexDigit (b / 16) :: hexDigit (b % 16) :: (t.map hexByte).flatten) = _
    rw [hexDecodeL]
    rw [hexVal_hexDigit _ hdiv, hexVal_hexDigit _ hmod]
    have : hexDecodeL (hexEncodeL t) = some t := ih ht
    rw [hexEncodeL] at this
    rw [this]
    simp only []
    show some ((16 * (b / 16) + b % 16) :: t) = some (b :: t)
    have hdm : 16 * (b / 16) + b % 16 = b := by omega
    rw [hdm]

theorem splitOnColon_no_colon (a : List Char) (ha : ':' ∉ a) : splitOnColon a = [a] := by
  induction a with
  | nil => rfl
  | cons c t ih =>
    have hc : c ≠ ':' := fun h => ha (h ▸ List.mem_cons_self c t)
    have ht : ':' ∉ t := fun h => ha (List.mem_cons_of_mem _ h)
    rw [splitOnColon, if_neg hc, ih ht]

theorem splitOnColon_append (a b : List Char) (ha : ':' ∉ a) :
    splitOnColon (a ++ ':' :: b) = a :: splitOnColon b := by
  induction a with
  | nil => simp [splitOnColon]
  | cons c t ih =>
    have hc : c ≠ ':' := fun h => ha (h ▸ List.mem_cons_self c t)
    have ht : ':' ∉ t := fun h => ha (List.mem_cons_of_mem _ h)
    simp only [List.cons_append]
    rw [splitOnColon, if_neg hc, ih ht]

theorem toList_mkRecord (iv authTag encrypted : List Nat) :
    (mkRecord iv authTag encrypted).toList =
      hexEncodeL iv ++ ':' :: (hexEncodeL authTag ++ ':' :: hexEncodeL encrypted) := by
  simp [mkRecord, String.toList, String.data_append]

theorem splitOnColon_mkRecord (iv authTag encrypted : List Nat)
    (hiv : ∀ b ∈ iv, b < 256) (htag : ∀ b ∈ authTag, b < 256)
    (hct : ∀ b ∈ encrypted, b < 256) :
    splitOnColon (mkRecord iv authTag encrypted).toList =
      [hexEncodeL iv, hexEncodeL authTag, hexEncodeL encrypted] := by
  rw [toList_mkRecord]
  rw [splitOnColon_append _ _ (colon_not_mem_hexEncodeL iv hiv)]
  rw [splitOnColon_append _ _ (colon_not_mem_hexEncodeL authTag htag)]
  rw [splitOnColon_no_colon _ (colon_not_mem_hexEncodeL encrypted hct)]

theorem decryptPassword_mkRecord (A : AES256GCM) (key : Nat) (iv tag ct : List Nat)
    (hiv : ∀ b ∈ iv, b < 256) (htag : ∀ b ∈ tag, b < 256) (hct : ∀ b ∈ ct, b < 256) :
    decryptPassword A key (mkRecord iv tag ct) =
      if A.mac key iv ct = tag then some (A.dec key iv ct) else none := by
  unfold decryptPassword
  rw [splitOnColon_mkRecord iv tag ct hiv htag hct]
  simp only [hexDecodeL_hexEncodeL iv hiv, hexDecodeL_hexEncodeL tag htag,
    hexDecodeL_hexEncodeL ct hct]

/-- C7: under one master key, `decryptPassword` inverts `encryptPassword`;
a record whose authentication tag was altered decrypts to `null`, as does
a record that does not split into exactly three `:`-separated parts, and
decryption under a key whose tag check disagrees (the wrong-key case);
none of these failures surfaces an exception. -/
theorem c7_vault_roundtrip_and_fail_closed (A : AES256GCM) (key key2 : Nat)
    (iv tag2 : List Nat) (p : String) (s : String)
    (hiv : ∀ b ∈ iv, b < 256) (htag2 : ∀ b ∈ tag2, b < 256)
    (htamper : tag2 ≠ A.mac key iv (A.enc key iv p))
    (hwrong : A.mac key2 iv (A.enc key iv p) ≠ A.mac key iv (A.enc key iv p))
    (hparts : (splitOnColon s.toList).length ≠ 3) :
    decryptPassword A key (encryptPassword A key iv p) = some p
    ∧ decryptPassword A key (mkRecord iv tag2 (A.enc key iv p)) = none
    ∧ decryptPassword A key2 (encryptPassword A key iv p) = none
    ∧ decryptPassword A key s = none := by
  refine ⟨?_, ?_, ?_, ?_⟩
  · simp only [encryptPassword]
    rw [decryptPassword_mkRecord A key iv _ _ hiv (A.mac_bytes key iv _)
      (A.enc_bytes key iv p)]
    rw [if_pos rfl, A.dec_enc]
  · rw [decryptPassword_mkRecord A key iv tag2 _ hiv htag2 (A.enc_bytes key iv p)]
    rw [if_neg (fun h => htamper h.symm)]
  · simp only [encryptPassword]
    rw [decryptPassword_mkRecord A key2 iv _ _ hiv (A.mac_bytes key iv _)
      (A.enc_bytes key iv p)]
    rw [if_neg hwrong]
  · unfold decryptPassword
    rcases h : splitOnColon s.toList with _ | ⟨a, _ | ⟨b, _ | ⟨c, _ | ⟨d, t⟩⟩⟩⟩
    · rfl
    · rfl
    · rfl
    · exact absurd (by rw [h]; rfl) hparts
    · rfl

/-- Witness for C7 at a concrete key, iv, plaintext, tampered tag, wrong
key and malformed record. -/
theorem c7_witness :
    ((∀ b ∈ [1, 2], b < 256) ∧ (∀ b ∈ [9], b < 256)
      ∧ [9] ≠ charCodec.mac 0 [1, 2] (charCodec.enc 0 [1, 2] "ab")
      ∧ charCodec.mac 1 [1, 2] (charCodec.enc 0 [1, 2] "ab")
          ≠ charCodec.mac 0 [1, 2] (charCodec.enc 0 [1, 2] "ab")
      ∧ (splitOnColon ("abc".toList)).length ≠ 3)
    ∧ decryptPassword charCodec 0 (encryptPassword charCodec 0 [1, 2] "ab") = some "ab" := by
  refine ⟨⟨by decide, by decide, by decide, by decide, by decide⟩, ?_⟩
  exact (c7_vault_roundtrip_and_fail_closed charCodec 0 1 [1, 2] [9] "ab" "abc"
    (by decide) (by decide) (by decide) (by decide) (by decide)).1

theorem ensureDefaultAdmin_mem (da : User) (users : List User)
    (h1 : da.username = "Admin") (h2 : da.role = some "admin")
    (h3 : da.isDefault = some true) :
    ∃ u ∈ ensureDefaultAdmin da users,
      u.username = "Admin" ∧ u.role = some "admin" ∧ u.isDefault = some true := by
  unfold ensureDefaultAdmin
  by_cases hex : users.any (fun u => (jsToLower u.username) == "admin")
  · rw [if_pos hex]
    have hsome : (users.findIdx? (fun u => (jsToLower u.username) == "admin")).isSome := by
      rw [List.findIdx?_isSome, hex]
    obtain ⟨i, hi⟩ := Option.isSome_iff_exists.mp hsome
    rw [hi]
    obtain ⟨hlt, -, -⟩ := List.findIdx?_eq_some_iff_getElem.mp hi
    refine ⟨mergedAdmin ((users.get? i).getD da) da, List.mem_set users i hlt _, ?_, ?_, ?_⟩
    · simpa [mergedAdmin] using h1
    · simp [mergedAdmin, h2, Option.orElse]
    · simp [mergedAdmin]
  · rw [if_neg hex]
    exact ⟨da, List.mem_cons_self _ _, h1, h2, h3⟩

theorem getDefaultAdminUser_pinned (adminPassword : Option String)
    (encrypt : String → String) (now : String) :
    (getDefaultAdminUser adminPassword encrypt now).username = "Admin"
    ∧ (getDefaultAdminUser adminPassword encrypt now).role = some "admin"
    ∧ (getDefaultAdminUser adminPassword encrypt now).isDefault = some true := by
  cases adminPassword <;> simp [getDefaultAdminUser]

/-- C4 (amended): every list returned by `loadUsers` contains a record
with the protected fields pinned (`username = "Admin"`, `role = admin`,
`isDefault = true`), inserted at the head of the list when no record's
lowercased username is `admin`; but uniqueness of `isDefault` is NOT
enforced — records under other usernames keep whatever `isDefault` flag
the persisted file gave them (see the counterexample). -/
theorem c4_loadUsers_default_admin (fetched envUsers : Option (List User))
    (adminPassword : Option String) (encrypt : String → String) (now : String) :
    (∃ u ∈ loadUsers fetched envUsers (getDefaultAdminUser adminPassword encrypt now),
       u.username = "Admin" ∧ u.role = some "admin" ∧ u.isDefault = some true)
    ∧ (∀ users : List User,
        users.any (fun u => (jsToLower u.username) == "admin") = false →
        ensureDefaultAdmin (getDefaultAdminUser adminPassword encrypt now) users =
          getDefaultAdminUser adminPassword encrypt now :: users) := by
  obtain ⟨h1, h2, h3⟩ := getDefaultAdminUser_pinned adminPassword encrypt now
  constructor
  · unfold loadUsers
    exact ensureDefaultAdmin_mem _ _ h1 h2 h3
  · intro users hnone
    unfold ensureDefaultAdmin
    rw [if_neg (by rw [hnone]; exact Bool.false_ne_true)]

/-- Counterexample to C4's uniqueness clause: loading a file whose only
record is a non-admin account flagged `isDefault` yields TWO accounts with
`isDefault = true`. -/
theorem c4_counterexample :
    ((loadUsers (some [c4Bob]) none c4DefaultAdmin).filter
        (fun u => jsTruthyB u.isDefault)).length = 2 := by
  decide

/-- Witness for C4's head-insertion clause at a concrete list. -/
theorem c4_witness :
    ([c4Bob].any (fun u => (jsToLower u.username) == "admin") = false)
    ∧ ensureDefaultAdmin c4DefaultAdmin [c4Bob] = c4DefaultAdmin :: [c4Bob] :=
  ⟨by decide,
   (c4_loadUsers_default_admin (some [c4Bob]) none (some "master") id
      "2024-01-01T00:00:00.000Z").2 [c4Bob] (by decide)⟩

/-- C6 (amended): `findUser` matches the username exactly
(case-sensitively, `u.username === username`), not case-insensitively;
given the lookup, `authenticateUser` returns null uniformly for a missing
user, a failed decryption, and a wrong password, and compares the stored
credential directly for a legacy plain-text-flagged record. -/
theorem c6_authenticate_exact_lookup_uniform_null (dec : String → Option String)
    (users : List User) (username password : String) :
    (∀ u, findUser users username = some u → u.username = username)
    ∧ (findUser users username = none →
        authenticateUser dec users username password = none)
    ∧ (∀ u, findUser users username = some u → jsTruthyB u.isPlainText = true →
        authenticateUser dec users username password =
          (if u.encryptedPassword == some password
           then some (u.username, jsOr u.role "admin") else none))
    ∧ (∀ u e, findUser users username = some u → jsTruthyB u.isPlainText = false →
        u.encryptedPassword = some e → dec e = none →
        authenticateUser dec users username password = none)
    ∧ (∀ u e d, findUser users username = some u → jsTruthyB u.isPlainText = false →
        u.encryptedPassword = some e → dec e = some d → password ≠ d →
        authenticateUser dec users username password = none) := by
  refine ⟨?_, ?_, ?_, ?_, ?_⟩
  · intro u hu
    have hp := List.find?_some hu
    simpa using hp
  · intro h
    unfold authenticateUser
    rw [h]
  · intro u hu hpl
    unfold authenticateUser
    rw [hu]
    simp [hpl]
  · intro u e hu hpl he hdec
    unfold authenticateUser
    rw [hu]
    simp [hpl, he, hdec]
  · intro u e d hu hpl he hdec hne
    unfold authenticateUser
    rw [hu]
    simp [hpl, he, hdec, hne]

/-- Counterexample to C6's case-insensitive clause: with only the account
`Admin` stored, a login as `admin` (same username up to case, correct
password) finds no user and fails, while the exact-case login succeeds —
the lookup is case-sensitive. -/
theorem c6_counterexample :
    jsToLower "Admin" = jsToLower "admin"
    ∧ authenticateUser (fun _ => none) [c6User] "Admin" "pw" = some ("Admin", "admin")
    ∧ authenticateUser (fun _ => none) [c6User] "admin" "pw" = none := by
  refine ⟨by decide, by decide, by decide⟩

/-- Witness for C6 at a concrete list: the missing-user path returns
null. -/
theorem c6_witness :
    findUser [c6User] "admin" = none
    ∧ authenticateUser (fun _ => none) [c6User] "admin" "pw" = none :=
  ⟨by decide,
   (c6_authenticate_exact_lookup_uniform_null (fun _ => none) [c6User] "admin" "pw").2.1
     (by decide)⟩

theorem optColl_eq_of_noDel (ocs : Option ChangeSet) (snap : List Obj)
    (genId : Nat → String) (now : String) (path name : String) (h : noDel ocs) :
    optColl ocs snap genId now path name = Except.ok
      ((if collHasChanges ocs
        then [(path, FileData.arr (optSnap ocs snap genId now))] else []),
       (if collHasChanges ocs
        then [(name, some (optSnap ocs snap genId now).length)] else [])) := by
  cases ocs with
  | none => simp [optColl, collHasChanges]
  | some cs =>
    rcases h with h | h <;>
      simp only [optColl, collEntry, processArrayCollection, h, collHasChanges, optSnap] <;>
      by_cases hc : hasChanges cs <;>
      simp [hc]

theorem processAll_eq_of_noDel (body : BatchBody) (ps gs hs : List Obj)
    (gip gig : Nat → String) (hm : Nat → Nat) (now : String)
    (h1 : noDel body.products) (h2 : noDel body.gallery) (h3 : noDel body.hero) :
    processAll body ps gs hs gip gig hm now = Except.ok
      ((if collHasChanges body.products
        then [("data/products.json", FileData.arr (optSnap body.products ps gip now))] else [])
       ++ (if collHasChanges body.gallery
           then [("data/gallery.json", FileData.arr (optSnap body.gallery gs gig now))] else [])
       ++ (if collHasChanges body.hero
           then [("data/hero.json",
                  FileData.arr (optSnap body.hero hs (fun i => toString (hm i + i)) now))] else [])
       ++ contentFiles body.content,
       (if collHasChanges body.products
        then [("products", some (optSnap body.products ps gip now).length)] else [])
       ++ (if collHasChanges body.gallery
           then [("gallery", some (optSnap body.gallery gs gig now).length)] else [])
       ++ (if collHasChanges body.hero
           then [("hero",
                  some (optSnap body.hero hs (fun i => toString (hm i + i)) now).length)] else [])
       ++ contentResults body.content) := by
  unfold processAll
  rw [optColl_eq_of_noDel _ _ _ _ _ _ h1, optColl_eq_of_noDel _ _ _ _ _ _ h2,
    optColl_eq_of_noDel _ _ _ _ _ _ h3]

theorem listIfEmpty {α : Type} (b : Bool) (x : α) :
    ((if b then [x] else []) = ([] : List α)) ↔ b = false := by
  cases b <;> simp

/-- C1 (amended): with no delete arrays submitted (otherwise the block
throws), the batch reports `No changes to save` and performs no provider
write EXACTLY when every submitted change-set has empty `create` and
`update` arrays and there is no content update.  The write-set membership
test is the non-emptiness of the submitted arrays, not snapshot change: a
collection whose resulting snapshot equals the loaded one is still
committed whenever one of its arrays is non-empty (see the
counterexample). -/
theorem c1_nothing_to_commit_iff_empty_changesets (ah : Option String)
    (verify : String → VerifyResult) (tok un r gt : String) (body : BatchBody)
    (ps gs hs : List Obj) (gip gig : Nat → String) (hm : Nat → Nat) (now : String)
    (hb : bearerToken ah = some tok) (hv : verify tok = VerifyResult.valid un r)
    (h1 : noDel body.products) (h2 : noDel body.gallery) (h3 : noDel body.hero) :
    ((handleBatch ah verify (some gt) body ps gs hs gip gig hm now).filesToUpdate = []
      ∧ (handleBatch ah verify (some gt) body ps gs hs gip gig hm now).commitPerformed = false
      ∧ (handleBatch ah verify (some gt) body ps gs hs gip gig hm now).message
          = some "No changes to save")
    ↔ (collHasChanges body.products = false ∧ collHasChanges body.gallery = false
       ∧ collHasChanges body.hero = false ∧ contentFiles body.content = []) := by
  have hproc := processAll_eq_of_noDel body ps gs hs gip gig hm now h1 h2 h3
  simp only [handleBatch, hb, hv, hproc]
  generalize hF : ((if collHasChanges body.products
        then [("data/products.json", FileData.arr (optSnap body.products ps gip now))] else [])
       ++ (if collHasChanges body.gallery
           then [("data/gallery.json", FileData.arr (optSnap body.gallery gs gig now))] else [])
       ++ (if collHasChanges body.hero
           then [("data/hero.json",
                  FileData.arr (optSnap body.hero hs (fun i => toString (hm i + i)) now))] else [])
       ++ contentFiles body.content) = F
  have hFiff : F = [] ↔ (collHasChanges body.products = false
      ∧ collHasChanges body.gallery = false ∧ collHasChanges body.hero = false
      ∧ contentFiles body.content = []) := by
    rw [← hF]
    simp [List.append_eq_nil, listIfEmpty]
  by_cases hF0 : F = []
  · subst hF0
    simp only [List.length_nil, if_pos rfl]
    simp only [hFiff.mp rfl]
    simp
  · have hlen : ¬ F.length = 0 := fun h => hF0 (List.length_eq_zero.mp h)
    rw [if_neg hlen]
    constructor
    · rintro ⟨hcontra, -, -⟩
      exact absurd hcontra hF0
    · intro hr
      exact absurd (hFiff.mpr hr) hF0

/-- Counterexample to C1 as stated: an update to a nonexistent id is a
zero-net-change batch, yet the handler commits (`commitPerformed = true`),
writes `data/products.json` with content identical to the loaded
snapshot, and does not report `No changes to save`. -/
theorem c1_counterexample :
    (handleBatch (some "Bearer t") (fun _ => VerifyResult.valid "u" "editor") (some "gh")
        c1Body c1Snap [] [] (fun _ => "r") (fun _ => "r") (fun _ => 0) "T").commitPerformed
      = true
    ∧ (handleBatch (some "Bearer t") (fun _ => VerifyResult.valid "u" "editor") (some "gh")
        c1Body c1Snap [] [] (fun _ => "r") (fun _ => "r") (fun _ => 0) "T").filesToUpdate
      = [("data/products.json", FileData.arr c1Snap)]
    ∧ ¬ (handleBatch (some "Bearer t") (fun _ => VerifyResult.valid "u" "editor") (some "gh")
        c1Body c1Snap [] [] (fun _ => "r") (fun _ => "r") (fun _ => 0) "T").message
      = some "No changes to save" := by
  refine ⟨by decide, by decide, by decide⟩

/-- Witness for C1 at a concrete input: a batch submitting a products
change-set whose arrays are all empty reports `No changes to save` with
no write. -/
theorem c1_witness :
    bearerToken (some "Bearer t") = some "t"
    ∧ ((fun _ => VerifyResult.valid "u" "editor") "t" = VerifyResult.valid "u" "editor")
    ∧ noDel (BatchBody.products { products := some { update := some ([] : List Obj) } })
    ∧ ((handleBatch (some "Bearer t") (fun _ => VerifyResult.valid "u" "editor") (some "gh")
        { products := some { update := some ([] : List Obj) } } [] [] []
        (fun _ => "r") (fun _ => "r") (fun _ => 0) "T").filesToUpdate = []
      ∧ (handleBatch (some "Bearer t") (fun _ => VerifyResult.valid "u" "editor") (some "gh")
        { products := some { update := some ([] : List Obj) } } [] [] []
        (fun _ => "r") (fun _ => "r") (fun _ => 0) "T").commitPerformed = false
      ∧ (handleBatch (some "Bearer t") (fun _ => VerifyResult.valid "u" "editor") (some "gh")
        { products := some { update := some ([] : List Obj) } } [] [] []
        (fun _ => "r") (fun _ => "r") (fun _ => 0) "T").message
          = some "No changes to save") := by
  refine ⟨by decide, rfl, by simp [noDel], ?_⟩
  exact (c1_nothing_to_commit_iff_empty_changesets (some "Bearer t")
    (fun _ => VerifyResult.valid "u" "editor") "t" "u" "editor" "gh"
    { products := some { update := some ([] : List Obj) } } [] [] []
    (fun _ => "r") (fun _ => "r") (fun _ => 0) "T"
    (by decide) rfl (by simp [noDel]) (by simp [noDel]) (by simp [noDel])).mpr
    (by decide)

/-- C3 at the failing input: the gallery block's `delete` handling assigns
to the `const`-declared snapshot (`gallery = gallery.filter(...)`), so
every batch whose delete list is non-empty throws a TypeError; the
products-update + gallery-delete scenario returns 500 with NO commit and
an empty write set, instead of one commit touching the two files.  The
general conjunct: any products change-set with a non-empty delete array
makes the whole batch fail the same way. -/
theorem c3_delete_const_reassignment_bug :
    ((handleBatch (some "Bearer t") (fun _ => VerifyResult.valid "u" "editor") (some "gh")
        c3Body c3PSnap c3GSnap [] (fun _ => "i") (fun _ => "i") (fun _ => 0) "T")
      = { status := 500, error := some "Assignment to constant variable" })
    ∧ (∀ (cre upd : Option (List Obj)) (d : String) (ds : List String)
         (ps gs hs : List Obj) (gip gig : Nat → String) (hm : Nat → Nat) (now : String),
         handleBatch (some "Bearer t") (fun _ => VerifyResult.valid "u" "editor") (some "gh")
           { products := some { create := cre, update := upd, del := some (d :: ds) } }
           ps gs hs gip gig hm now
           = { status := 500, error := some "Assignment to constant variable" }) := by
  constructor
  · decide
  · intro cre upd d ds ps gs hs gip gig hm now
    have hb : bearerToken (some "Bearer t") = some "t" := by decide
    have hlen : (d :: ds).length > 0 := Nat.succ_pos _
    simp only [handleBatch, hb, processAll, optColl, collEntry,
      processArrayCollection, if_pos hlen]

/-- C8: the batch handler silently drops the `users` change-set the admin
client sends: the outcome never depends on `body.users`, and a batch whose
only member is a users change-set answers `No changes to save` with no
per-collection result and no write, instead of applying the operations. -/
theorem c8_users_changeset_dropped :
    (∀ (ah : Option String) (verify : String → VerifyResult) (gt : Option String)
       (body : BatchBody) (ucs : Option ChangeSet) (ps gs hs : List Obj)
       (gip gig : Nat → String) (hm : Nat → Nat) (now : String),
       handleBatch ah verify gt { body with users := ucs } ps gs hs gip gig hm now =
         handleBatch ah verify gt body ps gs hs gip gig hm now)
    ∧ (handleBatch (some "Bearer t") (fun _ => VerifyResult.valid "u" "admin") (some "gh")
        { users := some { create := some [[("username", "newuser")]] } } [] [] []
        (fun _ => "i") (fun _ => "i") (fun _ => 0) "T")
      = { status := 200, message := some "No changes to save", results := [] } := by
  exact ⟨fun ah verify gt body ucs ps gs hs gip gig hm now => rfl, by decide⟩

/-- C2 (amended): the account-management handler does gate every request
on a bearer token, a valid verification and the `admin` role before any
provider I/O (401/401/403, never a write); but the batch handler only
checks that the token is valid — its outcome is independent of the
verified role (a viewer token reaches the commit path) — and the content
handler consults no token at all: its PUT writes `data/content.json`
with the authorization header absent. -/
theorem c2_auth_guard_coverage (ah : Option String) (verify : String → VerifyResult)
    (method : String) (body : UMBody) (users : List User) (ap : Option String)
    (enc : String → String) (now : String) (gc : Bool) :
    (bearerToken ah = none →
      usersManagement ah verify method body users ap enc now gc
        = { status := 401, error := some "Authentication required" })
    ∧ (∀ tok e, bearerToken ah = some tok → verify tok = VerifyResult.invalid e →
        usersManagement ah verify method body users ap enc now gc
          = { status := 401, error := some "Invalid or expired token" })
    ∧ (∀ tok u r, bearerToken ah = some tok → verify tok = VerifyResult.valid u r →
        r ≠ "admin" →
        usersManagement ah verify method body users ap enc now gc
          = { status := 403, error := some "Admin access required" })
    ∧ (∀ (snap cbody : Obj) (gt : String),
        (handleContent "PUT" none cbody (some gt) snap now).savedFile
          = some ("data/content.json", spread (spread snap cbody) [("updatedAt", now)]))
    ∧ (∀ (gt : String) (bbody : BatchBody) (ps gs hs : List Obj)
         (gip gig : Nat → String) (hm : Nat → Nat)
         (v1 v2 : String → VerifyResult) (tok un1 un2 r1 r2 : String),
         bearerToken ah = some tok → v1 tok = VerifyResult.valid un1 r1 →
         v2 tok = VerifyResult.valid un2 r2 →
         handleBatch ah v1 (some gt) bbody ps gs hs gip gig hm now
           = handleBatch ah v2 (some gt) bbody ps gs hs gip gig hm now) := by
  refine ⟨?_, ?_, ?_, ?_, ?_⟩
  · intro h
    simp only [usersManagement, h]
  · intro tok e hb hv
    simp only [usersManagement, hb, hv]
  · intro tok u r hb hv hr
    simp only [usersManagement, hb, hv, if_pos hr]
  · intro snap cbody gt
    simp [handleContent]
  · intro gt bbody ps gs hs gip gig hm v1 v2 tok un1 un2 r1 r2 hb h1 h2
    simp only [handleBatch, hb, h1, h2]

/-- Counterexample to C2 as stated: a PUT to the content endpoint with NO
authorization header still performs a provider write, and a valid
viewer-role token drives the batch endpoint all the way to a commit. -/
theorem c2_counterexample :
    ¬ (handleContent "PUT" none [("title", "x")] (some "gh") [] "T").savedFile = none
    ∧ (handleBatch (some "Bearer t") (fun _ => VerifyResult.valid "v" "viewer") (some "gh")
        c2Body [] [] [] (fun _ => "i") (fun _ => "i") (fun _ => 0) "T").commitPerformed
      = true := by
  exact ⟨by decide, by decide⟩

/-- Witness for C2 at concrete inputs: the missing-token 401 of the
account-management guard. -/
theorem c2_witness :
    bearerToken none = none
    ∧ usersManagement none (fun _ => VerifyResult.invalid "x") "GET" {} []
        none id "T" true
      = { status := 401, error := some "Authentication required" } :=
  ⟨rfl,
   (c2_auth_guard_coverage none (fun _ => VerifyResult.invalid "x") "GET" {} []
      none id "T" true).1 rfl⟩

/-- C9 (amended): a created item's `createdAt` is always the server
timestamp (it is spread last), and the generated id is stored exactly
when the submitted entry carries no `id` field of its own; an `id` field
on the entry overrides the server-assigned one, because the entry is
spread over the generated id (see the counterexample).  For products and
gallery the generator is `Date.now().toString() + random suffix`; hero
ids are `(Date.now() + counter).toString()` with no random part. -/
theorem c9_create_id_assignment (gid : String) (item : Obj) (now : String) :
    (item.get "id" = none → (mkCreated gid item now).get "id" = some gid)
    ∧ (∀ v, item.get "id" = some v → (mkCreated gid item now).get "id" = some v)
    ∧ (mkCreated gid item now).get "createdAt" = some now := by
  have hlook : List.lookup "id" [("createdAt", now)] = none := by
    simp [List.lookup]
  refine ⟨?_, ?_, ?_⟩
  · intro h
    simp only [Obj.get] at h
    rw [mkCreated, spread_get, spread_get]
    simp [Obj.get, hlook, h, List.lookup, Option.orElse]
  · intro v h
    simp only [Obj.get] at h
    rw [mkCreated, spread_get, spread_get]
    simp [Obj.get, hlook, h, List.lookup, Option.orElse]
  · rw [mkCreated, spread_get]
    simp [Obj.get, List.lookup, Option.orElse]

/-- Counterexample to C9 as stated: a create entry carrying an `id` is
persisted with the client's id, not the server-generated one; and
hero-style ids within one batch are bare time-plus-counter values with no
random suffix. -/
theorem c9_counterexample :
    Obj.get (mkCreated "server-id" [("id", "temp_1"), ("name", "x")] "T") "id"
      = some "temp_1"
    ∧ (createWithIds (fun i => toString (1000 + i)) "T" 0 [[("t", "a")], [("t", "b")]]).map
        (fun o => Obj.get o "id") = [some "1000", some "1001"] := by
  exact ⟨by decide, by decide⟩

/-- Witness for C9 at a concrete entry without an id. -/
theorem c9_witness :
    Obj.get [("name", "x")] "id" = none
    ∧ Obj.get (mkCreated "gid1" [("name", "x")] "T") "id" = some "gid1" :=
  ⟨by decide,
   (c9_create_id_assignment "gid1" [("name", "x")] "T").1 (by decide)⟩

/-- C10: every failed provider read — network error, 404, any other
non-OK HTTP status, or an unparseable body — returns the empty collection
(`{}` for a content path, `[]` otherwise) instead of an error; hence a
products batch submitted under such a failure is applied against the
empty snapshot and its commit's write set holds only the batch's own
created items. -/
theorem c10_read_failure_fail_open (path : String) (o : FetchOutcome)
    (hfail : o = FetchOutcome.networkError
      ∨ ∃ st parsed, o = FetchOutcome.httpResponse st parsed
          ∧ (st = 404 ∨ responseOk st = false ∨ parsed = none)) :
    getFileFromGitHub path o = emptyFor path
    ∧ (∀ (ah : Option String) (verify : String → VerifyResult) (tok un r gt : String)
         (gip gig : Nat → String) (hm : Nat → Nat) (now : String) (x : Obj)
         (items : List Obj),
         bearerToken ah = some tok → verify tok = VerifyResult.valid un r →
         (handleBatch ah verify (some gt)
             { products := some { create := some (x :: items) } }
             (fileItems (getFileFromGitHub "data/products.json" o)) [] []
             gip gig hm now).filesToUpdate
           = [("data/products.json",
               FileData.arr (createWithIds gip now 0 (x :: items)))]) := by
  have hempty : ∀ p, getFileFromGitHub p o = emptyFor p := by
    intro p
    rcases hfail with h | ⟨st, parsed, h, hcase⟩
    · rw [h]; rfl
    · rw [h]
      simp only [getFileFromGitHub]
      by_cases h404 : st = 404
      · rw [if_pos h404]
      · rw [if_neg h404]
        cases hok : responseOk st with
        | false => rfl
        | true =>
          rcases hcase with hc | hc | hc
          · exact absurd hc h404
          · rw [hok] at hc; exact absurd hc (by simp)
          · rw [hc]
            simp
  refine ⟨hempty path, ?_⟩
  intro ah verify tok un r gt gip gig hm now x items hb hv
  have hsnap : fileItems (getFileFromGitHub "data/products.json" o) = [] := by
    rw [hempty]; decide
  rw [hsnap]
  have hnd : noDel (some { create := some (x :: items) } : Option ChangeSet) := by
    simp [noDel]
  have hproc := processAll_eq_of_noDel
    { products := some { create := some (x :: items) } } [] [] [] gip gig hm now
    hnd (by simp [noDel]) (by simp [noDel])
  simp only [handleBatch, hb, hv, hproc]
  simp [collHasChanges, hasChanges, contentFiles, contentResults, optSnap,
    applyUpdatesThenCreates]

/-- Witness for C10: a network error on the gallery and products reads, a
one-item create batch applied against the resulting empty snapshot. -/
theorem c10_witness :
    (FetchOutcome.networkError = FetchOutcome.networkError
      ∨ ∃ st parsed, FetchOutcome.networkError = FetchOutcome.httpResponse st parsed
          ∧ (st = 404 ∨ responseOk st = false ∨ parsed = none))
    ∧ getFileFromGitHub "data/gallery.json" FetchOutcome.networkError
        = emptyFor "data/gallery.json"
    ∧ (handleBatch (some "Bearer t") (fun _ => VerifyResult.valid "u" "editor") (some "gh")
        { products := some { create := some [[("name", "y")]] } }
        (fileItems (getFileFromGitHub "data/products.json" FetchOutcome.networkError)) [] []
        (fun _ => "i") (fun _ => "i") (fun _ => 0) "T").filesToUpdate
      = [("data/products.json",
          FileData.arr (createWithIds (fun _ => "i") "T" 0 [[("name", "y")]]))] := by
  refine ⟨Or.inl rfl, ?_, ?_⟩
  · exact (c10_read_failure_fail_open "data/gallery.json" FetchOutcome.networkError
      (Or.inl rfl)).1
  · exact (c10_read_failure_fail_open "data/products.json" FetchOutcome.networkError
      (Or.inl rfl)).2 (some "Bearer t") (fun _ => VerifyResult.valid "u" "editor")
      "t" "u" "editor" "gh" (fun _ => "i") (fun _ => "i") (fun _ => 0) "T"
      [("name", "y")] [] (by decide) rfl

theorem applyUserPatch_username (body : UMBody) (username : String)
    (encrypt : String → String) (t : User) :
    (applyUserPatch body username encrypt t).username = t.username := by
  simp only [applyUserPatch]
  cases hpw : jsTruthy body.password <;>
    cases hrl : jsTruthy body.role && !(jsTruthyB t.isDefault) <;>
    cases body.email <;>
    simp only [if_true, if_false, Bool.false_eq_true] <;>
    split <;>
    rfl

theorem map_username_set (users : List User) (i : Nat) (u target : User)
    (hget : users[i]? = some target) (hu : u.username = target.username) :
    (users.set i u).map User.username = users.map User.username := by
  induction users generalizing i with
  | nil => simp at hget
  | cons a t ih =>
    cases i with
    | zero =>
      simp only [List.getElem?_cons_zero, Option.some.injEq] at hget
      subst hget
      simp [List.set, hu]
    | succ n =>
      simp only [List.getElem?_cons_succ] at hget
      simp [List.set, ih n hget]

theorem ensureAdminInList_usernames (ap : Option String) (encrypt : String → String)
    (now : String) (l : List User) :
    (ensureAdminInList ap encrypt now l).map User.username = l.map User.username
    ∨ (ensureAdminInList ap encrypt now l).map User.username
        = "Admin" :: l.map User.username := by
  cases ap with
  | none => exact Or.inl rfl
  | some pw =>
    simp only [ensureAdminInList]
    by_cases h : l.any (fun u => (jsToLower u.username) == "admin")
    · rw [if_pos h]; exact Or.inl rfl
    · rw [if_neg h]
      right
      simp [getDefaultAdminUser]

theorem umPutFound_usernames (body : UMBody) (users : List User) (username : String)
    (ap : Option String) (encrypt : String → String) (now : String) (gc : Bool)
    (l : List User)
    (h : (umPutFound body users username ap encrypt now gc).savedUsers = some l) :
    l.map User.username = users.map User.username
    ∨ l.map User.username = "Admin" :: users.map User.username := by
  unfold umPutFound at h
  rcases hfi : users.findIdx? (fun u => (jsToLower u.username) == jsToLower username)
    with _ | i
  · rw [hfi] at h
    simp at h
  · rw [hfi] at h
    simp only [] at h
    split_ifs at h with h1 h2 h3
    simp at h
    subst h
    obtain ⟨hlt, -⟩ := List.findIdx?_eq_some_iff_getElem.mp hfi
    have hget : users[i]? = some users[i] := List.getElem?_eq_getElem hlt
    have hmap := map_username_set users i
      (applyUserPatch body username encrypt
        (users[i]?.getD (getDefaultAdminUser ap encrypt now)))
      users[i] hget
      (by rw [applyUserPatch_username, hget]; rfl)
    rcases ensureAdminInList_usernames ap encrypt now
      (users.set i (applyUserPatch body username encrypt
        (users[i]?.getD (getDefaultAdminUser ap encrypt now)))) with hl | hl
    · rw [hl, hmap]; exact Or.inl rfl
    · rw [hl, hmap]; exact Or.inr rfl

theorem umPut_savedUsers_some (body : UMBody) (users : List User) (ap : Option String)
    (enc : String → String) (now : String) (gc : Bool) (l : List User)
    (h : (umPut body users ap enc now gc).savedUsers = some l) :
    (umPutFound body users (body.username.getD "") ap enc now gc).savedUsers = some l := by
  unfold umPut at h
  by_cases ht : jsTruthy body.username
  · rw [if_neg (by simp [ht])] at h
    cases hbr : body.role with
    | none =>
      rw [hbr] at h
      simp only [] at h
      unfold umPutChecked at h
      cases hbp : body.password with
      | none => rw [hbp] at h; exact h
      | some p =>
        rw [hbp] at h
        simp only [] at h
        by_cases hlen : p.length < 6
        · rw [if_pos hlen] at h; simp at h
        · rw [if_neg hlen] at h; exact h
    | some r =>
      rw [hbr] at h
      simp only [] at h
      by_cases hcr : validRoles.contains r
      · rw [if_neg (by rw [hcr]; decide)] at h
        unfold umPutChecked at h
        cases hbp : body.password with
        | none => rw [hbp] at h; exact h
        | some p =>
          rw [hbp] at h
          simp only [] at h
          by_cases hlen : p.length < 6
          · rw [if_pos hlen] at h; simp at h
          · rw [if_neg hlen] at h; exact h
      · rw [if_pos (by rw [eq_false_of_ne_true hcr]; decide)] at h
        simp at h
  · rw [if_pos (by simp [ht])] at h
    simp at h

/-- C5: with any acting admin, a request whose target is the record
flagged `isDefault` is rejected with HTTP 400 and no provider write: a
DELETE never removes it, and a PUT carrying a non-admin role value is
refused (by the role validation for an invalid value, by the
default-admin guard for `editor`/`viewer`); moreover no successful PUT
ever changes any account's username — the endpoint has no rename field,
so the saved list's usernames are those of the loaded list, at most with
the reconstructed `Admin` prepended. -/
theorem c5_default_admin_protected (ah : Option String)
    (verify : String → VerifyResult) (tok acting : String) (body : UMBody)
    (users : List User) (ap : Option String) (enc : String → String) (now : String)
    (gc : Bool) (un : String) (i : Nat)
    (hb : bearerToken ah = some tok)
    (hv : verify tok = VerifyResult.valid acting "admin")
    (hun : body.username = some un) (hunT : ¬ un = "")
    (hfind : users.findIdx? (fun u => (jsToLower u.username) == jsToLower un) = some i)
    (hdef : jsTruthyB ((users.get? i).getD (getDefaultAdminUser ap enc now)).isDefault
      = true) :
    ((usersManagement ah verify "DELETE" body users ap enc now gc).status = 400
      ∧ (usersManagement ah verify "DELETE" body users ap enc now gc).savedUsers = none)
    ∧ (∀ r, body.role = some r → r ≠ "admin" →
        (usersManagement ah verify "PUT" body users ap enc now gc).status = 400
        ∧ (usersManagement ah verify "PUT" body users ap enc now gc).savedUsers = none)
    ∧ (∀ l, (usersManagement ah verify "PUT" body users ap enc now gc).savedUsers
          = some l →
        l.map User.username = users.map User.username
        ∨ l.map User.username = "Admin" :: users.map User.username) := by
  have htr : jsTruthy body.username = true := by
    rw [hun]; simp [jsTruthy, hunT]
  have hgetd : body.username.getD "" = un := by rw [hun]; rfl
  have edel : usersManagement ah verify "DELETE" body users ap enc now gc
      = umDelete body users acting ap enc now gc := by
    simp [usersManagement, hb, hv]
  have eput : usersManagement ah verify "PUT" body users ap enc now gc
      = umPut body users ap enc now gc := by
    simp [usersManagement, hb, hv]
  refine ⟨?_, ?_, ?_⟩
  · rw [edel]
    simp only [umDelete]
    rw [if_neg (by simp [htr]), hgetd, hfind]
    simp only []
    rw [if_pos hdef]
    exact ⟨rfl, rfl⟩
  · intro r hr hrne
    rw [eput]
    unfold umPut
    rw [if_neg (by simp [htr]), hr]
    simp only []
    by_cases hcr : validRoles.contains r
    · have hrne2 : ¬ r = "" := by
        intro he
        subst he
        simp [validRoles] at hcr
      rw [if_neg (by rw [hcr]; decide)]
      unfold umPutChecked
      have hguard : (umPutFound body users (body.username.getD "") ap enc now gc).status
            = 400
          ∧ (umPutFound body users (body.username.getD "") ap enc now gc).savedUsers
            = none := by
        simp only [umPutFound]
        rw [hgetd, hfind]
        simp only []
        have hcond : (jsTruthyB ((users.get? i).getD (getDefaultAdminUser ap enc now)).isDefault
            && jsTruthy body.role && !(body.role == some "admin")) = true := by
          rw [hdef, hr]
          simp [jsTruthy, hrne2, hrne]
        rw [if_pos hcond]
        exact ⟨rfl, rfl⟩
      cases hbp : body.password with
      | none => exact hguard
      | some p =>
        simp only []
        by_cases hlen : p.length < 6
        · rw [if_pos hlen]
          exact ⟨rfl, rfl⟩
        · rw [if_neg hlen]
          exact hguard
    · rw [if_pos (by rw [eq_false_of_ne_true hcr]; decide)]
      exact ⟨rfl, rfl⟩
  · intro l hl
    rw [eput] at hl
    exact umPutFound_usernames body users (body.username.getD "") ap enc now gc l
      (umPut_savedUsers_some body users ap enc now gc l hl)

/-- Witness for C5: a concrete admin session deleting the stored default
admin record is refused with 400 and nothing is saved. -/
theorem c5_witness :
    (bearerToken (some "Bearer t") = some "t"
     ∧ ¬ "Admin" = ""
     ∧ [getDefaultAdminUser (some "m") id "T"].findIdx?
         (fun u => jsToLower u.username == jsToLower "Admin") = some 0
     ∧ jsTruthyB (([getDefaultAdminUser (some "m") id "T"].get? 0).getD
         (getDefaultAdminUser (some "m") id "T")).isDefault = true)
    ∧ (usersManagement (some "Bearer t") (fun _ => VerifyResult.valid "root" "admin")
        "DELETE" { username := some "Admin", role := some "editor" }
        [getDefaultAdminUser (some "m") id "T"] (some "m") id "T" true).status = 400
    ∧ (usersManagement (some "Bearer t") (fun _ => VerifyResult.valid "root" "admin")
        "DELETE" { username := some "Admin", role := some "editor" }
        [getDefaultAdminUser (some "m") id "T"] (some "m") id "T" true).savedUsers
      = none := by
  refine ⟨⟨by decide, by decide, by decide, by decide⟩, ?_, ?_⟩
  · exact (c5_default_admin_protected (some "Bearer t")
      (fun _ => VerifyResult.valid "root" "admin") "t" "root"
      { username := some "Admin", role := some "editor" }
      [getDefaultAdminUser (some "m") id "T"] (some "m") id "T" true "Admin" 0
      (by decide) rfl rfl (by decide) (by decide) (by decide)).1.1
  · exact (c5_default_admin_protected (some "Bearer t")
      (fun _ => VerifyResult.valid "root" "admin") "t" "root"
      { username := some "Admin", role := some "editor" }
      [getDefaultAdminUser (some "m") id "T"] (some "m") id "T" true "Admin" 0
      (by decide) rfl rfl (by decide) (by decide) (by decide)).1.2
